import Mathlib

/-!
# Verification of the LibraManage data-access layer

Shallow embedding of the validation, retry, authentication and circulation
logic of `src/database.py` and `src/utils.py`, together with proofs of the
behavioural properties stated in the project specification.

Strings are modelled by Lean `String` / `List Char`; database tables by lists
of records; timestamps by an abstract `Nat` clock passed to each operation
that writes a date.  Every raised `ValidationError` is modelled as an error
value carrying the message string from the source.
-/

instance {ε α : Type} [DecidableEq ε] [DecidableEq α] : DecidableEq (Except ε α) := fun x y =>
  match x, y with
  | .ok a, .ok b => if h : a = b then isTrue (by rw [h]) else isFalse (by simp [h])
  | .error a, .error b => if h : a = b then isTrue (by rw [h]) else isFalse (by simp [h])
  | .ok _, .error _ => isFalse (by simp)
  | .error _, .ok _ => isFalse (by simp)

namespace LibraManage

/-! ## Validators (`DataValidator` in src/database.py, helpers in src/utils.py) -/

/-- Python `str.isdigit()` on a character list: nonempty and all decimal digits. -/
def pyIsdigit (s : List Char) : Bool := !s.isEmpty && s.all Char.isDigit

/-- `isbn.replace('-', '').replace(' ', '')`. -/
def stripIsbn (s : List Char) : List Char := s.filter (fun c => c != '-' && c != ' ')

/-- `DataValidator.validate_isbn` (src/database.py lines 43-66): strips hyphens
and spaces, then checks the *format* only (length 10 with nine digits and a
final digit or `X`, or length 13 all digits).  The accepted (cleaned) string is
returned. -/
def dvValidateIsbn (isbn0 : List Char) : Except String (List Char) :=
  let isbn := stripIsbn isbn0
  if !pyIsdigit (isbn.filter (fun c => c != 'X')) || (isbn.length != 10 && isbn.length != 13) then
    .error "Invalid ISBN format - must be 10 or 13 digits"
  else if isbn.length = 10 then
    if !pyIsdigit (isbn.take 9) || ((isbn.getD 9 ' ') != 'X' && !(isbn.getD 9 ' ').isDigit) then
      .error "Invalid ISBN-10 format"
    else
      .ok isbn
  else if isbn.length = 13 then
    if !pyIsdigit isbn then
      .error "Invalid ISBN-13 format - must be all digits"
    else
      .ok isbn
  else
    .ok isbn

/-- `DataValidator.validate_isbn` on a `String` argument. -/
def validate_isbn_str (isbn : String) : Except String String :=
  (dvValidateIsbn isbn.toList).map List.asString

/-- Numeric value of a decimal digit character. -/
def charVal (c : Char) : Nat := c.toNat - '0'.toNat

/-- `sum((10 - i) * int(num) for i, num in enumerate(isbn[:-1]))` for ISBN-10. -/
def isbn10Total (ds : List Char) : Nat :=
  (ds.enum.map (fun p => (10 - p.1) * charVal p.2)).sum

/-- `sum((1 if i % 2 == 0 else 3) * int(num) for i, num in enumerate(isbn[:-1]))`
for ISBN-13. -/
def isbn13Total (ds : List Char) : Nat :=
  (ds.enum.map (fun p => (if p.1 % 2 = 0 then 1 else 3) * charVal p.2)).sum

/-- `utils.validate_isbn` (src/utils.py lines 61-85): the checksum-verifying
validator.  `int(num)` raising `ValueError` on a non-digit character (such as
`'X'` inside the summed prefix) is caught by the surrounding `except` and turns
into `False`. -/
def utils_validate_isbn (isbn0 : String) : Bool :=
  if isbn0.toList.isEmpty then false
  else
    let isbn := stripIsbn isbn0.toList
    if !pyIsdigit (isbn.filter (fun c => c != 'X')) then false
    else if isbn.length = 10 then
      if !(isbn.take 9).all Char.isDigit then false
      else
        let total := isbn10Total (isbn.take 9)
        let check := 11 - total % 11
        let checkChar : Char := if check = 10 then 'X' else Char.ofNat ('0'.toNat + check % 11)
        isbn.getD 9 ' ' == checkChar
    else if isbn.length = 13 then
      if !(isbn.take 12).all Char.isDigit then false
      else
        let total := isbn13Total (isbn.take 12)
        let check := (10 - total % 10) % 10
        isbn.getD 12 ' ' == Char.ofNat ('0'.toNat + check)
    else false

/-- Python `str.strip()`: remove leading and trailing whitespace. -/
def pyStrip (s : String) : String :=
  ((s.toList.dropWhile Char.isWhitespace).reverse.dropWhile Char.isWhitespace).reverse.asString

/-- `DataValidator.validate_string` (src/database.py lines 21-29). -/
def validate_string (value fieldName : String) (minLength maxLength : Nat) :
    Except String String :=
  let v := pyStrip value
  if v.toList.length < minLength then .error (fieldName ++ " cannot be empty")
  else if v.toList.length > maxLength then
    .error (fieldName ++ " cannot exceed " ++ toString maxLength ++ " characters")
  else .ok v

/-! ### `validate_integer` and the Python exception flow -/

/-- The two exception kinds that can leave `DataValidator.validate_integer`:
`ValueError` (from `int(...)`) and the custom `ValidationError`. -/
inductive PyExc where
  | valueError (msg : String)
  | validationError (msg : String)
deriving Repr, DecidableEq

/-- The `Union[str, int]` argument type of `validate_integer`. -/
inductive PyValue where
  | str (s : String)
  | int (n : Int)
deriving Repr, DecidableEq

/-- Python whitespace stripped by `int(str)`. -/
def isPySpace (c : Char) : Bool := c == ' ' || c == '\t' || c == '\n' || c == '\r'

/-- Decimal value of an all-digit character list. -/
def digitsVal (ds : List Char) : Nat :=
  ds.foldl (fun acc c => 10 * acc + charVal c) 0

/-- `int()` applied to a string: optional surrounding whitespace, optional
sign, then a nonempty run of decimal digits; anything else raises
`ValueError`. -/
def pyIntOfStr (s0 : List Char) : Option Int :=
  let s := ((s0.dropWhile isPySpace).reverse.dropWhile isPySpace).reverse
  match s with
  | '-' :: rest => if pyIsdigit rest then some (-(digitsVal rest : Int)) else none
  | '+' :: rest => if pyIsdigit rest then some ((digitsVal rest : Int)) else none
  | _ => if pyIsdigit s then some ((digitsVal s : Int)) else none

/-- `int(value)` on the `Union[str, int]` domain; failure is a `ValueError`. -/
def pyInt : PyValue → Except String Int
  | .int n => .ok n
  | .str s =>
    match pyIntOfStr s.toList with
    | some n => .ok n
    | none => .error ("invalid literal for int() with base 10: " ++ s)

/-- The `try` body of `DataValidator.validate_integer` (src/database.py lines
31-41): `int(value)` may raise `ValueError`; the range checks raise
`ValidationError` from inside the `try` block. -/
def validate_integer_try (value : PyValue) (fieldName : String)
    (minValue maxValue : Option Int) : Except PyExc Int :=
  match pyInt value with
  | .error m => .error (.valueError m)
  | .ok num =>
    if minValue.any (fun mv => decide (num < mv)) then
      .error (.validationError (fieldName ++ " must be at least " ++ toString (minValue.getD 0)))
    else if maxValue.any (fun mv => decide (mv < num)) then
      .error (.validationError (fieldName ++ " must not exceed " ++ toString (maxValue.getD 0)))
    else
      .ok num

/-- `DataValidator.validate_integer`: the `except ValueError` handler converts
a `ValueError` into a `ValidationError`; a `ValidationError` raised inside the
`try` is not a `ValueError` and propagates unchanged. -/
def validate_integer (value : PyValue) (fieldName : String)
    (minValue maxValue : Option Int) : Except PyExc Int :=
  match validate_integer_try value fieldName minValue maxValue with
  | .error (.valueError _) => .error (.validationError (fieldName ++ " must be a valid number"))
  | r => r

/-! ### Email and phone validation (src/utils.py lines 43-59) -/

/-- The `\w` character class of the (ASCII reading of the) regexes. -/
def isWordChar (c : Char) : Bool := c.isAlphanum || c == '_'

/-- The `[\w\.-]` character class. -/
def isWordDotDash (c : Char) : Bool := isWordChar c || c == '.' || c == '-'

/-- Match of `[\w\.-]+\.\w+` against a whole string: since `\w+` cannot contain
a dot, the literal `\.` must match the last dot, so the part after the last dot
must be a nonempty run of word characters and the part before it a nonempty run
of `[\w\.-]` characters. -/
def matchDomain (s : List Char) : Bool :=
  let r := s.reverse
  let tl := r.takeWhile (fun c => c != '.')
  match r.drop tl.length with
  | [] => false
  | _ :: mid => !tl.isEmpty && tl.all isWordChar && !mid.isEmpty && mid.all isWordDotDash

/-- `utils.validate_email`: `re.match(r'^[\w\.-]+@[\w\.-]+\.\w+$', email)`.
Neither character class contains `@`, so the literal `@` must match the first
(and only) `@` of the string. -/
def validate_email (email : String) : Bool :=
  if email.toList.isEmpty then false
  else
    let s := email.toList
    let locPart := s.takeWhile (fun c => c != '@')
    match s.drop locPart.length with
    | [] => false
    | _ :: domain =>
      !locPart.isEmpty && locPart.all isWordDotDash &&
        !domain.any (fun c => c == '@') && matchDomain domain

/-- `utils.validate_phone`: `re.match(r'^\+?1?\d{9,15}$', phone)`; the optional
`1` backtracks, so a leading `1` may either be consumed by `1?` or count as the
first of the 9-15 digits. -/
def validate_phone (phone : String) : Bool :=
  if phone.toList.isEmpty then false
  else
    let s := phone.toList
    let s1 := match s with
      | '+' :: rest => rest
      | _ => s
    let digitsRun : List Char → Bool := fun t =>
      decide (9 ≤ t.length) && decide (t.length ≤ 15) && t.all Char.isDigit
    match s1 with
    | '1' :: rest => digitsRun rest || digitsRun s1
    | _ => digitsRun s1

/-! ## Validated input records (src/database.py lines 68-92) -/

structure BookData where
  title : String
  author : String
  isbn : String
  quantity : Int
  category : String
deriving Repr, DecidableEq

structure MemberData where
  name : String
  email : String
  phone : String
deriving Repr, DecidableEq

/-- `validate_integer` call sites inside the database layer always pass an
`int`, so only the `ValidationError` branch can fire; this helper flattens the
exception type back to its message. -/
def validateIntField (n : Int) (fieldName : String) (minValue : Option Int) :
    Except String Int :=
  match validate_integer (.int n) fieldName minValue none with
  | .ok v => .ok v
  | .error (.validationError m) => .error m
  | .error (.valueError m) => .error m

/-- `validate_book_data` (src/database.py lines 68-78): the first failing
field validation aborts, and its message is re-raised as
`ValidationError("Book validation failed: ...")`. -/
def validate_book_data (title author isbn : String) (quantity : Int)
    (category : String) : Except String BookData :=
  match validate_string title "Title" 1 255 with
  | .error e => .error ("Book validation failed: " ++ e)
  | .ok t =>
    match validate_string author "Author" 1 255 with
    | .error e => .error ("Book validation failed: " ++ e)
    | .ok a =>
      match validate_isbn_str isbn with
      | .error e => .error ("Book validation failed: " ++ e)
      | .ok i =>
        match validateIntField quantity "Quantity" (some 0) with
        | .error e => .error ("Book validation failed: " ++ e)
        | .ok q =>
          match validate_string category "Category" 1 255 with
          | .error e => .error ("Book validation failed: " ++ e)
          | .ok c =>
            .ok { title := t, author := a, isbn := i, quantity := q, category := c }

/-- `validate_member_data` (src/database.py lines 80-92). -/
def validate_member_data (name email phone : String) : Except String MemberData :=
  match validate_string name "Name" 1 255 with
  | .error e => .error ("Member validation failed: " ++ e)
  | .ok n =>
    if !validate_email email then .error "Member validation failed: Invalid email format"
    else if !validate_phone phone then .error "Member validation failed: Invalid phone format"
    else .ok { name := n, email := email, phone := phone }

/-! ## Database state -/

/-- A row of the `books` table. -/
structure Book where
  id : Nat
  title : String
  author : String
  isbn : String
  quantity : Int
  available : Int
  category : String
deriving Repr, DecidableEq

/-- A row of the `members` table. -/
structure Member where
  id : Int
  name : String
  email : String
  phone : String
  join_date : Nat
deriving Repr, DecidableEq

/-- A row of the `transactions` table; `return_date = none` models SQL NULL. -/
structure Txn where
  id : Nat
  book_id : Nat
  member_id : Int
  issue_date : Nat
  return_date : Option Nat
  status : String
deriving Repr, DecidableEq

/-- The database state reached through the circulation operations; the
`next…Id` fields model the autoincrementing primary keys. -/
structure DB where
  books : List Book
  members : List Member
  txns : List Txn
  nextBookId : Nat
  nextMemberId : Int
  nextTxnId : Nat
deriving Repr, DecidableEq

def emptyDB : DB :=
  { books := [], members := [], txns := [], nextBookId := 1, nextMemberId := 1, nextTxnId := 1 }

/-- `UPDATE … SET … WHERE …`: apply `f` to every row satisfying `p`. -/
def updateWhere (p : α → Bool) (f : α → α) (l : List α) : List α :=
  l.map (fun a => if p a then f a else a)

/-- `SELECT … FROM books WHERE isbn = ?` followed by `fetchone()`. -/
def selectBookByIsbn (db : DB) (isbn : String) : Option Book :=
  db.books.find? (fun b => b.isbn == isbn)

/-- `SELECT … FROM books WHERE id = ?` followed by `fetchone()`. -/
def selectBookById (db : DB) (bid : Nat) : Option Book :=
  db.books.find? (fun b => b.id == bid)

/-- The `available` column of the (unique) book row with the given id. -/
def availOf (db : DB) (bid : Nat) : Option Int :=
  (selectBookById db bid).map Book.available

/-- `SELECT id FROM members WHERE id = ?` succeeds. -/
def memberExists (db : DB) (memberId : Int) : Bool :=
  (db.members.find? (fun m => m.id == memberId)).isSome

/-! ## Circulation operations

Each operation returns the post-call state together with `none` on success or
`some msg` for a raised `ValidationError msg`.  The transactional operations
are split into the `operation(conn)` body (whose returned state is the state
at the instant the body finishes or raises) and a wrapper that models
`conn.rollback()` by restoring the entry state whenever the body raises. -/

/-- Body of the transaction inside `add_book` (src/database.py lines 475-501). -/
def addBookOperation (db : DB) (d : BookData) : DB × Option String :=
  if (db.books.find? (fun b => b.isbn == d.isbn)).isSome then
    (db, some "Book with this ISBN already exists")
  else
    let b : Book :=
      { id := db.nextBookId, title := d.title, author := d.author, isbn := d.isbn,
        quantity := d.quantity, available := d.quantity, category := d.category }
    ({ db with books := db.books ++ [b], nextBookId := db.nextBookId + 1 }, none)

/-- `add_book` (src/database.py lines 463-510): validation happens before the
transaction opens; the transaction rolls back on any raised error. -/
def add_book (db : DB) (title author isbn : String) (quantity : Int)
    (category : String) : DB × Option String :=
  match validate_book_data title author isbn quantity category with
  | .error e => (db, some e)
  | .ok d =>
    match addBookOperation db d with
    | (db', none) => (db', none)
    | (_, some e) => (db, some e)

/-- `add_member` (src/database.py lines 387-423): validation, duplicate-email
check, then the insert; every raise happens before the insert. -/
def add_member (db : DB) (name email phone : String) (now : Nat) :
    DB × Option String :=
  match validate_member_data name email phone with
  | .error e => (db, some e)
  | .ok d =>
    if (db.members.find? (fun m => m.email == d.email)).isSome then
      (db, some "Member with this email already exists")
    else
      let m : Member :=
        { id := db.nextMemberId, name := d.name, email := d.email, phone := d.phone,
          join_date := now }
      ({ db with members := db.members ++ [m], nextMemberId := db.nextMemberId + 1 }, none)

/-- Body of the transaction inside `issue_book` (src/database.py lines
575-611): read the book, check availability and member existence, apply the
guarded decrement `UPDATE books SET available = available - 1 WHERE id = ? AND
available > 0`, check `cursor.rowcount`, then insert the loan row. -/
def issueOperation (db : DB) (memberId : Int) (isbn : String) (now : Nat) :
    DB × Option String :=
  match db.books.find? (fun b => b.isbn == isbn) with
  | none => (db, some "Book does not exist")
  | some book =>
    if book.available ≤ 0 then (db, some "Book is not available")
    else if !memberExists db memberId then (db, some "Member does not exist")
    else
      let books' := updateWhere (fun b => b.id == book.id && decide (0 < b.available))
        (fun b => { b with available := b.available - 1 }) db.books
      let rowcount := db.books.countP (fun b => b.id == book.id && decide (0 < b.available))
      let db1 := { db with books := books' }
      if rowcount ≠ 1 then (db1, some "Failed to update book availability")
      else
        let t : Txn :=
          { id := db1.nextTxnId, book_id := book.id, member_id := memberId,
            issue_date := now, return_date := none, status := "issued" }
        ({ db1 with txns := db1.txns ++ [t], nextTxnId := db1.nextTxnId + 1 }, none)

/-- `issue_book` (src/database.py lines 568-624): input validation, then the
transaction body with rollback on any raised exception. -/
def issue_book (db : DB) (memberId : Int) (isbn : String) (now : Nat) :
    DB × Option String :=
  match validateIntField memberId "Member ID" (some 1) with
  | .error e => (db, some e)
  | .ok mid =>
    match validate_isbn_str isbn with
    | .error e => (db, some e)
    | .ok i =>
      match issueOperation db mid i now with
      | (db', none) => (db', none)
      | (_, some e) => (db, some e)

/-- Body of the transaction inside `return_book` (src/database.py lines
519-557): find the book, find the open loan row for (member, book), stamp it
returned, and increment `available` (unguarded). -/
def returnOperation (db : DB) (memberId : Int) (isbn : String) (now : Nat) :
    DB × Option String :=
  match db.books.find? (fun b => b.isbn == isbn) with
  | none => (db, some "Book does not exist")
  | some book =>
    match db.txns.find? (fun t =>
        t.member_id == memberId && t.book_id == book.id && t.return_date.isNone) with
    | none => (db, some "No matching unreturned loan record found")
    | some loan =>
      let txns' := updateWhere (fun t => t.id == loan.id)
        (fun t => { t with return_date := some now, status := "returned" }) db.txns
      let books' := updateWhere (fun b => b.id == book.id)
        (fun b => { b with available := b.available + 1 }) db.books
      ({ db with txns := txns', books := books' }, none)

/-- `return_book` (src/database.py lines 512-566): input validation, then the
transaction body with rollback on any raised exception. -/
def return_book (db : DB) (memberId : Int) (isbn : String) (now : Nat) :
    DB × Option String :=
  match validateIntField memberId "Member ID" (some 1) with
  | .error e => (db, some e)
  | .ok mid =>
    match validate_isbn_str isbn with
    | .error e => (db, some e)
    | .ok i =>
      match returnOperation db mid i now with
      | (db', none) => (db', none)
      | (_, some e) => (db, some e)

/-- `SELECT SUM(available) as count FROM books`: an aggregate query without
GROUP BY always yields exactly one row; its value is NULL (`none`) when the
table is empty. -/
def sumAvailableRow (bs : List Book) : Option Int :=
  if bs.isEmpty then none else some (bs.map Book.available).sum

/-- `get_available_books` (src/database.py lines 432-437): `fetchone()` always
returns the single aggregate row here, so the `if result else 0` fallback never
fires and the NULL from an empty table is passed through as `none`. -/
def get_available_books (db : DB) : Option Int :=
  match (some (sumAvailableRow db.books) : Option (Option Int)) with
  | some c => c
  | none => some 0

/-! ## Authentication (src/database.py lines 260-312) -/

/-- A row of the `users` table; `login_attempts` is the stored counter
column. -/
structure User where
  id : Nat
  username : String
  password_hash : String
  role : String
  login_attempts : Nat
deriving Repr, DecidableEq

/-- The row shape produced by the SELECT inside `authenticate_user`; its
`login_attempts` field is the `COUNT(*) as login_attempts` alias, which shadows
the stored column of the same name. -/
structure AuthRow where
  id : Nat
  username : String
  password_hash : String
  role : String
  login_attempts : Nat
deriving Repr, DecidableEq

/-- The dictionary returned on successful authentication. -/
structure AuthUser where
  id : Nat
  username : String
  role : String
deriving Repr, DecidableEq

/-- `SELECT id, username, password_hash, role, COUNT(*) as login_attempts FROM
users WHERE username = ? GROUP BY id` followed by `fetchone()`: one group per
matching row id, whose aliased `login_attempts` value is the size of that
group — not the stored `login_attempts` column. -/
def authSelect (users : List User) (username : String) : Option AuthRow :=
  (users.filter (fun u => u.username == username)).head?.map (fun u =>
    { id := u.id, username := u.username, password_hash := u.password_hash,
      role := u.role,
      login_attempts :=
        (users.filter (fun v => v.username == username && v.id == u.id)).length })

/-- `UPDATE users SET login_attempts = 0 WHERE username = ?`. -/
def resetAttempts (users : List User) (username : String) : List User :=
  updateWhere (fun u => u.username == username)
    (fun u => { u with login_attempts := 0 }) users

/-- `UPDATE users SET login_attempts = login_attempts + 1 WHERE username = ?`. -/
def incAttempts (users : List User) (username : String) : List User :=
  updateWhere (fun u => u.username == username)
    (fun u => { u with login_attempts := u.login_attempts + 1 }) users

/-- `authenticate_user` (src/database.py lines 260-312), parametrized by the
Argon2 `verify_password` function.  `Except.ok none` models the `return None`
("invalid credentials") outcome; an error models a raised `ValidationError`.
The second component is the post-call `users` table. -/
def authenticate_user (verify : String → String → Bool) (users : List User)
    (username password : String) : Except String (Option AuthUser) × List User :=
  match validate_string username "Username" 1 255 with
  | .error e => (.error e, users)
  | .ok uname =>
    if password.toList.isEmpty then (.error "Password cannot be empty", users)
    else
      match authSelect users uname with
      | none => (.ok none, users)
      | some row =>
        if row.login_attempts ≥ 5 then
          (.error "Account temporarily locked. Please try again later.", users)
        else if verify password row.password_hash then
          (.ok (some { id := row.id, username := row.username, role := row.role }),
            resetAttempts users uname)
        else
          (.ok none, incAttempts users uname)

/-! ## Retry executor (src/database.py lines 143-161) -/

/-- Outcome of one attempt of the wrapped operation. -/
inductive OpResult where
  | success
  | opLocked
  | opOther
  | otherError
deriving Repr, DecidableEq

/-- Result of `_execute_with_retry`: how the call ended and after how many
attempts.  `noAttempt` is the fall-through `return None` when the loop body
never runs (`retries = 0`). -/
inductive RetryResult where
  | success (attempts : Nat)
  | raisedLocked (attempts : Nat)
  | raisedOpOther (attempts : Nat)
  | raisedOther (attempts : Nat)
  | noAttempt
deriving Repr, DecidableEq

/-- The `for attempt in range(retries)` loop of `_execute_with_retry`,
started at `attempt`; returns the list of `time.sleep(0.5 * (attempt + 1))`
durations in milliseconds together with the final outcome.  Only a
`sqlite3.OperationalError` whose message contains "database is locked" is
retried, and only while further attempts remain; every other exception
propagates at once. -/
def retryLoop (outcome : Nat → OpResult) (retries attempt : Nat) :
    List Nat × RetryResult :=
  if _h : attempt < retries then
    match outcome attempt with
    | .success => ([], .success (attempt + 1))
    | .opLocked =>
      if attempt < retries - 1 then
        let rest := retryLoop outcome retries (attempt + 1)
        (500 * (attempt + 1) :: rest.1, rest.2)
      else ([], .raisedLocked (attempt + 1))
    | .opOther => ([], .raisedOpOther (attempt + 1))
    | .otherError => ([], .raisedOther (attempt + 1))
  else ([], .noAttempt)
termination_by retries - attempt
decreasing_by omega

/-- `_execute_with_retry(operation, retries=3)`. -/
def executeWithRetry (outcome : Nat → OpResult) (retries : Nat) :
    List Nat × RetryResult :=
  retryLoop outcome retries 0

/-! ## Generic list lemmas for keyed updates -/

section ListLemmas

variable {α : Type} {κ : Type} [DecidableEq κ]

theorem updateWhere_eq_self (p : α → Bool) (f : α → α) (l : List α)
    (h : ∀ a ∈ l, p a = false) : updateWhere p f l = l := by
  induction l with
  | nil => rfl
  | cons a t ih =>
    have ha := h a (by simp)
    have ht : ∀ x ∈ t, p x = false := fun x hx => h x (by simp [hx])
    have h2 : List.map (fun a => if p a = true then f a else a) t = t := ih ht
    simp [updateWhere, ha, h2]

theorem find?_updateWhere (p g : α → Bool) (f : α → α) (l : List α)
    (hp : ∀ a, p (f a) = p a) :
    (updateWhere g f l).find? p = (l.find? p).map (fun a => if g a then f a else a) := by
  induction l with
  | nil => rfl
  | cons a t ih =>
    have hhead : p (if g a then f a else a) = p a := by
      by_cases hg : g a <;> simp [hg, hp]
    by_cases hpa : p a = true
    · rw [updateWhere, List.map_cons,
        List.find?_cons_of_pos _ (by rw [hhead]; exact hpa),
        List.find?_cons_of_pos _ hpa]
      rfl
    · rw [updateWhere, List.map_cons,
        List.find?_cons_of_neg _ (by rw [hhead]; exact hpa),
        List.find?_cons_of_neg _ hpa]
      exact ih

theorem find?_key_of_nodup (key : α → κ) (l : List α)
    (hnd : (l.map key).Nodup) (b : α) (hb : b ∈ l) :
    l.find? (fun x => key x == key b) = some b := by
  induction l with
  | nil => cases hb
  | cons a t ih =>
    rw [List.map_cons] at hnd
    have hnd2 := List.nodup_cons.mp hnd
    rcases List.mem_cons.mp hb with rfl | hbt
    · exact List.find?_cons_of_pos _ (by simp)
    · have hne : key a ≠ key b := by
        intro he
        exact hnd2.1 (he ▸ List.mem_map_of_mem key hbt)
      rw [List.find?_cons_of_neg _ (by simpa using hne)]
      exact ih hnd2.2 hbt

theorem eq_of_key_eq_of_nodup (key : α → κ) (l : List α)
    (hnd : (l.map key).Nodup) {a b : α} (ha : a ∈ l) (hb : b ∈ l)
    (hk : key a = key b) : a = b := by
  have h1 := find?_key_of_nodup key l hnd a ha
  have h2 := find?_key_of_nodup key l hnd b hb
  rw [show (fun x => key x == key a) = (fun x => key x == key b) from by
    funext x; rw [hk]] at h1
  rw [h1] at h2
  exact Option.some_injective _ h2

theorem countP_key_of_nodup (key : α → κ) (l : List α)
    (hnd : (l.map key).Nodup) (b : α) (hb : b ∈ l) (q : α → Bool) :
    l.countP (fun x => key x == key b && q x) = if q b then 1 else 0 := by
  induction l with
  | nil => cases hb
  | cons a t ih =>
    rw [List.map_cons] at hnd
    have hnd2 := List.nodup_cons.mp hnd
    rcases List.mem_cons.mp hb with rfl | hbt
    · have ht : t.countP (fun x => key x == key b && q x) = 0 := by
        rw [List.countP_eq_zero]
        intro x hx
        have hne : key x ≠ key b := by
          intro he
          exact hnd2.1 (he ▸ List.mem_map_of_mem key hx)
        simp [hne]
      rw [List.countP_cons, ht]
      by_cases hq : q b <;> simp [hq]
    · have hne : key a ≠ key b := by
        intro he
        exact hnd2.1 (he ▸ List.mem_map_of_mem key hbt)
      rw [List.countP_cons, ih hnd2.2 hbt]
      simp [hne]

theorem countP_updateWhere_key (key : α → κ) (f : α → α) (q : α → Bool)
    (l : List α) (hnd : (l.map key).Nodup) (a0 : α) (h0 : a0 ∈ l) :
    (updateWhere (fun x => key x == key a0) f l).countP q + (if q a0 then 1 else 0)
      = l.countP q + (if q (f a0) then 1 else 0) := by
  induction l with
  | nil => cases h0
  | cons a t ih =>
    rw [List.map_cons] at hnd
    have hnd2 := List.nodup_cons.mp hnd
    rcases List.mem_cons.mp h0 with rfl | h0t
    · have ht : ∀ x ∈ t, (fun x => key x == key a0) x = false := by
        intro x hx
        have hne : key x ≠ key a0 := by
          intro he
          exact hnd2.1 (he ▸ List.mem_map_of_mem key hx)
        simpa using hne
      rw [updateWhere, List.map_cons, if_pos (by simp)]
      have htt : (t.map fun x => if (key x == key a0) = true then f x else x) = t :=
        updateWhere_eq_self _ f t ht
      rw [htt, List.countP_cons, List.countP_cons]
      by_cases h1 : q a0 <;> by_cases h2 : q (f a0) <;> simp [h1, h2]
    · have hne : key a ≠ key a0 := by
        intro he
        exact hnd2.1 (he ▸ List.mem_map_of_mem key h0t)
      have ih2 : (t.map fun x => if (key x == key a0) = true then f x else x).countP q
          + (if q a0 then 1 else 0) = t.countP q + (if q (f a0) then 1 else 0) :=
        ih hnd2.2 h0t
      rw [updateWhere, List.map_cons, if_neg (by simpa using hne),
        List.countP_cons, List.countP_cons]
      simp only [List.countP_map] at ih2 ⊢
      omega

end ListLemmas

/-! ## Library invariant -/

/-- Number of open loan rows (`return_date IS NULL`) for a given book id. -/
def openCount (txns : List Txn) (bid : Nat) : Nat :=
  txns.countP (fun t => t.book_id == bid && t.return_date.isNone)

/-- Number of open loan rows for a given member and book. -/
def countOpenFor (txns : List Txn) (memberId : Int) (bid : Nat) : Nat :=
  txns.countP (fun t => t.member_id == memberId && t.book_id == bid && t.return_date.isNone)

/-- Structural invariant of the database: primary keys are unique and below
their autoincrement counters, loan rows reference existing key ranges, and
each book's `available` column equals `quantity` minus its open loans and is
nonnegative. -/
structure Inv (db : DB) : Prop where
  book_ids_nodup : (db.books.map Book.id).Nodup
  book_ids_lt : ∀ b ∈ db.books, b.id < db.nextBookId
  txn_ids_nodup : (db.txns.map Txn.id).Nodup
  txn_ids_lt : ∀ t ∈ db.txns, t.id < db.nextTxnId
  txn_book_lt : ∀ t ∈ db.txns, t.book_id < db.nextBookId
  avail_eq : ∀ b ∈ db.books, b.available + (openCount db.txns b.id : Int) = b.quantity
  avail_nonneg : ∀ b ∈ db.books, 0 ≤ b.available

theorem emptyDB_inv : Inv emptyDB := by
  constructor <;> simp [emptyDB, openCount]

/-! ## Characterization of the operations -/

theorem validateIntField_min (n lo : Int) (fn : String) :
    validateIntField n fn (some lo) =
      if lo ≤ n then .ok n
      else .error (fn ++ " must be at least " ++ toString lo) := by
  by_cases h : lo ≤ n
  · simp [validateIntField, validate_integer, validate_integer_try, pyInt, Option.any,
      decide_eq_false (not_lt.mpr h), h]
  · simp [validateIntField, validate_integer, validate_integer_try, pyInt, Option.any,
      decide_eq_true (lt_of_not_le h), h]

/-- The loan row inserted by a successful `issue_book`. -/
def issuedTxn (db : DB) (b : Book) (m : Int) (now : Nat) : Txn :=
  { id := db.nextTxnId, book_id := b.id, member_id := m,
    issue_date := now, return_date := none, status := "issued" }

/-- The state produced by a successful `issue_book`. -/
def issuedState (db : DB) (b : Book) (m : Int) (now : Nat) : DB :=
  { db with
    books := updateWhere (fun x => x.id == b.id && decide (0 < x.available))
      (fun x => { x with available := x.available - 1 }) db.books,
    txns := db.txns ++ [issuedTxn db b m now],
    nextTxnId := db.nextTxnId + 1 }

theorem issue_book_success (db : DB) (m : Int) (i : String) (now : Nat) (b : Book)
    (hnd : (db.books.map Book.id).Nodup)
    (hfind : selectBookByIsbn db i = some b)
    (hpos : 0 < b.available)
    (hm : 1 ≤ m) (hmem : memberExists db m = true)
    (hvalid : validate_isbn_str i = .ok i) :
    issue_book db m i now = (issuedState db b m now, none) := by
  have hb : b ∈ db.books := List.mem_of_find?_eq_some hfind
  have hrow : db.books.countP (fun x => x.id == b.id && decide (0 < x.available)) = 1 := by
    have := countP_key_of_nodup Book.id db.books hnd b hb (fun x => decide (0 < x.available))
    rw [this, if_pos (decide_eq_true hpos)]
  have hfind' : db.books.find? (fun x => x.isbn == i) = some b := hfind
  rw [issue_book.eq_def, validateIntField_min, if_pos hm, hvalid]
  simp only []
  rw [issueOperation.eq_def, hfind']
  simp only []
  rw [if_neg (by omega), if_neg (by simp [hmem]), hrow]
  simp [issuedState, issuedTxn]

theorem issue_book_unavailable (db : DB) (m : Int) (i : String) (now : Nat) (b : Book)
    (hfind : selectBookByIsbn db i = some b)
    (hz : b.available ≤ 0)
    (hm : 1 ≤ m)
    (hvalid : validate_isbn_str i = .ok i) :
    issue_book db m i now = (db, some "Book is not available") := by
  have hfind' : db.books.find? (fun x => x.isbn == i) = some b := hfind
  rw [issue_book.eq_def, validateIntField_min, if_pos hm, hvalid]
  simp only []
  rw [issueOperation.eq_def, hfind']
  simp only []
  rw [if_pos hz]

/-- Any failing `issue_book` call leaves the state unchanged (the rollback). -/
theorem issue_book_error_frame (db : DB) (m : Int) (i : String) (now : Nat) :
    (issue_book db m i now).2 ≠ none → (issue_book db m i now).1 = db := by
  intro h
  rw [issue_book.eq_def] at h ⊢
  cases hv : validateIntField m "Member ID" (some 1) with
  | error e => simp [hv]
  | ok mid =>
    cases hi : validate_isbn_str i with
    | error e => simp [hv, hi]
    | ok i2 =>
      simp only [hv, hi] at h ⊢
      cases hop : issueOperation db mid i2 now with
      | mk db' err =>
        cases err with
        | none => simp [hop] at h
        | some e => simp [hop]

/-- The state produced by a successful `return_book` that closed loan `t0`. -/
def returnedState (db : DB) (b : Book) (t0 : Txn) (now : Nat) : DB :=
  { db with
    txns := updateWhere (fun t => t.id == t0.id)
      (fun t => { t with return_date := some now, status := "returned" }) db.txns,
    books := updateWhere (fun x => x.id == b.id)
      (fun x => { x with available := x.available + 1 }) db.books }

theorem return_book_success (db : DB) (m : Int) (i : String) (now : Nat) (b : Book) (t0 : Txn)
    (hfind : selectBookByIsbn db i = some b)
    (hloan : db.txns.find? (fun t =>
      t.member_id == m && t.book_id == b.id && t.return_date.isNone) = some t0)
    (hm : 1 ≤ m)
    (hvalid : validate_isbn_str i = .ok i) :
    return_book db m i now = (returnedState db b t0 now, none) := by
  have hfind' : db.books.find? (fun x => x.isbn == i) = some b := hfind
  rw [return_book.eq_def, validateIntField_min, if_pos hm, hvalid]
  simp only []
  rw [returnOperation.eq_def, hfind']
  simp only []
  rw [hloan]
  rfl

theorem return_book_no_loan (db : DB) (m : Int) (i : String) (now : Nat) (b : Book)
    (hfind : selectBookByIsbn db i = some b)
    (hloan : db.txns.find? (fun t =>
      t.member_id == m && t.book_id == b.id && t.return_date.isNone) = none)
    (hm : 1 ≤ m)
    (hvalid : validate_isbn_str i = .ok i) :
    return_book db m i now = (db, some "No matching unreturned loan record found") := by
  have hfind' : db.books.find? (fun x => x.isbn == i) = some b := hfind
  rw [return_book.eq_def, validateIntField_min, if_pos hm, hvalid]
  simp only []
  rw [returnOperation.eq_def, hfind']
  simp only []
  rw [hloan]

/-! ## Facts about the post-operation states -/

theorem selectBookByIsbn_issuedState (db : DB) (b : Book) (m : Int) (now : Nat) (i : String)
    (hfind : selectBookByIsbn db i = some b) (hpos : 0 < b.available) :
    selectBookByIsbn (issuedState db b m now) i
      = some { b with available := b.available - 1 } := by
  have hfind' : db.books.find? (fun x => x.isbn == i) = some b := hfind
  have hrw := find?_updateWhere (fun x => x.isbn == i)
    (fun x => x.id == b.id && decide (0 < x.available))
    (fun x => { x with available := x.available - 1 }) db.books (fun a => rfl)
  simp only [selectBookByIsbn, issuedState]
  rw [hrw, hfind']
  simp [hpos]

theorem availOf_issuedState_self (db : DB) (b : Book) (m : Int) (now : Nat)
    (hnd : (db.books.map Book.id).Nodup) (hb : b ∈ db.books) (hpos : 0 < b.available) :
    availOf (issuedState db b m now) b.id = some (b.available - 1) := by
  have hid : db.books.find? (fun x => x.id == b.id) = some b :=
    find?_key_of_nodup Book.id db.books hnd b hb
  have hrw := find?_updateWhere (fun x => x.id == b.id)
    (fun x => x.id == b.id && decide (0 < x.available))
    (fun x => { x with available := x.available - 1 }) db.books (fun a => rfl)
  simp only [availOf, selectBookById, issuedState]
  rw [hrw, hid]
  simp [hpos]

theorem availOf_issuedState_other (db : DB) (b : Book) (m : Int) (now : Nat) (x : Book)
    (hnd : (db.books.map Book.id).Nodup) (hx : x ∈ db.books) (hne : x.id ≠ b.id) :
    availOf (issuedState db b m now) x.id = some x.available := by
  have hid : db.books.find? (fun y => y.id == x.id) = some x :=
    find?_key_of_nodup Book.id db.books hnd x hx
  have hrw := find?_updateWhere (fun y => y.id == x.id)
    (fun y => y.id == b.id && decide (0 < y.available))
    (fun y => { y with available := y.available - 1 }) db.books (fun a => rfl)
  simp only [availOf, selectBookById, issuedState]
  rw [hrw, hid]
  simp [hne]

theorem countOpenFor_issuedState (db : DB) (b : Book) (m : Int) (now : Nat)
    (m' : Int) (bid : Nat) :
    countOpenFor (issuedState db b m now).txns m' bid
      = countOpenFor db.txns m' bid + (if m' = m ∧ bid = b.id then 1 else 0) := by
  simp only [issuedState, countOpenFor, List.countP_append]
  by_cases h1 : m' = m
  · by_cases h2 : bid = b.id
    · subst h1; subst h2; simp [issuedTxn, List.countP_cons]
    · have h2' : b.id ≠ bid := fun he => h2 he.symm
      subst h1
      simp [issuedTxn, List.countP_cons, h2, h2']
  · have h1' : m ≠ m' := fun he => h1 he.symm
    simp [issuedTxn, List.countP_cons, h1, h1']

theorem openCount_issuedState (db : DB) (b : Book) (m : Int) (now : Nat) (bid : Nat) :
    openCount (issuedState db b m now).txns bid
      = openCount db.txns bid + (if bid = b.id then 1 else 0) := by
  simp only [issuedState, openCount, List.countP_append]
  by_cases h2 : bid = b.id
  · subst h2; simp [issuedTxn, List.countP_cons]
  · have h2' : b.id ≠ bid := fun he => h2 he.symm
    simp [issuedTxn, List.countP_cons, h2, h2']

theorem selectBookByIsbn_returnedState (db : DB) (b : Book) (t0 : Txn) (now : Nat) (i : String)
    (hfind : selectBookByIsbn db i = some b) :
    selectBookByIsbn (returnedState db b t0 now) i
      = some { b with available := b.available + 1 } := by
  have hfind' : db.books.find? (fun x => x.isbn == i) = some b := hfind
  have hrw := find?_updateWhere (fun x => x.isbn == i)
    (fun x => x.id == b.id)
    (fun x => { x with available := x.available + 1 }) db.books (fun a => rfl)
  simp only [selectBookByIsbn, returnedState]
  rw [hrw, hfind']
  simp

theorem availOf_returnedState_self (db : DB) (b : Book) (t0 : Txn) (now : Nat)
    (hnd : (db.books.map Book.id).Nodup) (hb : b ∈ db.books) :
    availOf (returnedState db b t0 now) b.id = some (b.available + 1) := by
  have hid : db.books.find? (fun x => x.id == b.id) = some b :=
    find?_key_of_nodup Book.id db.books hnd b hb
  have hrw := find?_updateWhere (fun x => x.id == b.id)
    (fun x => x.id == b.id)
    (fun x => { x with available := x.available + 1 }) db.books (fun a => rfl)
  simp only [availOf, selectBookById, returnedState]
  rw [hrw, hid]
  simp

theorem availOf_returnedState_other (db : DB) (b : Book) (t0 : Txn) (now : Nat) (x : Book)
    (hnd : (db.books.map Book.id).Nodup) (hx : x ∈ db.books) (hne : x.id ≠ b.id) :
    availOf (returnedState db b t0 now) x.id = some x.available := by
  have hid : db.books.find? (fun y => y.id == x.id) = some x :=
    find?_key_of_nodup Book.id db.books hnd x hx
  have hrw := find?_updateWhere (fun y => y.id == x.id)
    (fun y => y.id == b.id)
    (fun y => { y with available := y.available + 1 }) db.books (fun a => rfl)
  simp only [availOf, selectBookById, returnedState]
  rw [hrw, hid]
  simp [hne]

theorem countOpenFor_returnedState_hit (db : DB) (b : Book) (t0 : Txn) (now : Nat)
    (m' : Int) (bid : Nat)
    (tnd : (db.txns.map Txn.id).Nodup) (ht0 : t0 ∈ db.txns)
    (hopen : t0.return_date = none)
    (hmem : t0.member_id = m') (hbid : t0.book_id = bid) :
    countOpenFor (returnedState db b t0 now).txns m' bid + 1
      = countOpenFor db.txns m' bid := by
  have key := countP_updateWhere_key Txn.id
    (fun t => { t with return_date := some now, status := "returned" })
    (fun t => t.member_id == m' && t.book_id == bid && t.return_date.isNone)
    db.txns tnd t0 ht0
  simp only [countOpenFor, returnedState]
  simp [hmem, hbid, hopen] at key
  simpa using key

theorem countOpenFor_returnedState_other (db : DB) (b : Book) (t0 : Txn) (now : Nat)
    (m' : Int) (bid : Nat)
    (tnd : (db.txns.map Txn.id).Nodup) (ht0 : t0 ∈ db.txns)
    (hmiss : ¬(t0.member_id = m' ∧ t0.book_id = bid)) :
    countOpenFor (returnedState db b t0 now).txns m' bid
      = countOpenFor db.txns m' bid := by
  have key := countP_updateWhere_key Txn.id
    (fun t => { t with return_date := some now, status := "returned" })
    (fun t => t.member_id == m' && t.book_id == bid && t.return_date.isNone)
    db.txns tnd t0 ht0
  have hq : (t0.member_id == m' && t0.book_id == bid && t0.return_date.isNone) = false := by
    by_cases h1 : t0.member_id = m'
    · have h2 : t0.book_id ≠ bid := fun hb2 => hmiss ⟨h1, hb2⟩
      simp [h1, h2]
    · simp [h1]
  simp only [countOpenFor, returnedState]
  simp [hq] at key
  simpa using key

theorem openCount_returnedState_hit (db : DB) (b : Book) (t0 : Txn) (now : Nat) (bid : Nat)
    (tnd : (db.txns.map Txn.id).Nodup) (ht0 : t0 ∈ db.txns)
    (hopen : t0.return_date = none) (hbid : t0.book_id = bid) :
    openCount (returnedState db b t0 now).txns bid + 1
      = openCount db.txns bid := by
  have key := countP_updateWhere_key Txn.id
    (fun t => { t with return_date := some now, status := "returned" })
    (fun t => t.book_id == bid && t.return_date.isNone)
    db.txns tnd t0 ht0
  simp only [openCount, returnedState]
  simp [hbid, hopen] at key
  simpa using key

theorem openCount_returnedState_other (db : DB) (b : Book) (t0 : Txn) (now : Nat) (bid : Nat)
    (tnd : (db.txns.map Txn.id).Nodup) (ht0 : t0 ∈ db.txns)
    (hbid : t0.book_id ≠ bid) :
    openCount (returnedState db b t0 now).txns bid = openCount db.txns bid := by
  have key := countP_updateWhere_key Txn.id
    (fun t => { t with return_date := some now, status := "returned" })
    (fun t => t.book_id == bid && t.return_date.isNone)
    db.txns tnd t0 ht0
  simp only [openCount, returnedState]
  simp [hbid] at key
  simpa using key

/-! ## Invariant preservation -/

theorem map_key_updateWhere {α κ : Type} (key : α → κ) (g : α → Bool) (f : α → α)
    (l : List α) (hf : ∀ a, key (f a) = key a) :
    (updateWhere g f l).map key = l.map key := by
  simp only [updateWhere, List.map_map]
  apply List.map_congr_left
  intro a _
  by_cases h : g a <;> simp [h, hf]

theorem inv_issuedState (db : DB) (b : Book) (m : Int) (now : Nat)
    (hinv : Inv db) (hb : b ∈ db.books) (hpos : 0 < b.available) :
    Inv (issuedState db b m now) := by
  obtain ⟨bnd, blt, tnd, tlt, tblt, haeq, hnn⟩ := hinv
  have hmapid : (issuedState db b m now).books.map Book.id = db.books.map Book.id :=
    map_key_updateWhere Book.id _ _ db.books (fun a => rfl)
  have hmem_books : ∀ x ∈ (issuedState db b m now).books,
      ∃ y ∈ db.books, x = if (y.id == b.id && decide (0 < y.available)) = true
        then { y with available := y.available - 1 } else y := by
    intro x hx
    simp only [issuedState, updateWhere, List.mem_map] at hx
    obtain ⟨y, hy, hxy⟩ := hx
    exact ⟨y, hy, hxy.symm⟩
  constructor
  · rw [hmapid]; exact bnd
  · intro x hx
    obtain ⟨y, hy, rfl⟩ := hmem_books x hx
    have := blt y hy
    by_cases h : (y.id == b.id && decide (0 < y.available)) = true <;> simp [h] <;> exact this
  · show ((db.txns ++ [issuedTxn db b m now]).map Txn.id).Nodup
    rw [List.map_append, List.nodup_append]
    refine ⟨tnd, by simp, ?_⟩
    intro a ha hb2
    simp only [List.mem_map] at ha
    obtain ⟨t, ht, rfl⟩ := ha
    have h1 := tlt t ht
    simp only [List.map_cons, List.map_nil, List.mem_singleton, issuedTxn] at hb2
    omega
  · intro t ht
    show t.id < db.nextTxnId + 1
    rcases List.mem_append.mp ht with h1 | h2
    · have := tlt t h1; omega
    · simp only [List.mem_singleton] at h2
      subst h2
      simp [issuedTxn]
  · intro t ht
    show t.book_id < db.nextBookId
    rcases List.mem_append.mp ht with h1 | h2
    · exact tblt t h1
    · simp only [List.mem_singleton] at h2
      subst h2
      simpa [issuedTxn] using blt b hb
  · intro x hx
    obtain ⟨y, hy, rfl⟩ := hmem_books x hx
    have hoc := openCount_issuedState db b m now
    by_cases h : (y.id == b.id && decide (0 < y.available)) = true
    · have hy_id : y.id = b.id := by
        have := (Bool.and_eq_true _ _).mp h
        exact beq_iff_eq.mp this.1
      have hyb : y = b := eq_of_key_eq_of_nodup Book.id db.books bnd hy hb hy_id
      subst hyb
      rw [if_pos h]
      have heq := haeq y hy
      have : openCount (issuedState db y m now).txns y.id
          = openCount db.txns y.id + 1 := by
        rw [hoc y.id, if_pos rfl]
      simp only [issuedState] at this ⊢
      rw [this]
      push_cast
      omega
    · rw [if_neg h]
      have hy_id : y.id ≠ b.id := by
        intro he
        have hyb : y = b := eq_of_key_eq_of_nodup Book.id db.books bnd hy hb he
        subst hyb
        simp [hpos] at h
      have : openCount (issuedState db b m now).txns y.id = openCount db.txns y.id := by
        rw [hoc y.id, if_neg hy_id]
        omega
      simp only [issuedState] at this ⊢
      rw [this]
      exact haeq y hy
  · intro x hx
    obtain ⟨y, hy, rfl⟩ := hmem_books x hx
    by_cases h : (y.id == b.id && decide (0 < y.available)) = true
    · rw [if_pos h]
      have := (Bool.and_eq_true _ _).mp h
      have hpos2 : 0 < y.available := of_decide_eq_true this.2
      simp only []
      omega
    · rw [if_neg h]
      exact hnn y hy

theorem inv_returnedState (db : DB) (b : Book) (t0 : Txn) (now : Nat)
    (hinv : Inv db) (hb : b ∈ db.books) (ht0 : t0 ∈ db.txns)
    (htb : t0.book_id = b.id) (hto : t0.return_date = none) :
    Inv (returnedState db b t0 now) := by
  obtain ⟨bnd, blt, tnd, tlt, tblt, haeq, hnn⟩ := hinv
  have hmapid : (returnedState db b t0 now).books.map Book.id = db.books.map Book.id :=
    map_key_updateWhere Book.id _ _ db.books (fun a => rfl)
  have hmaptid : (returnedState db b t0 now).txns.map Txn.id = db.txns.map Txn.id :=
    map_key_updateWhere Txn.id _ _ db.txns (fun a => rfl)
  have hmem_books : ∀ x ∈ (returnedState db b t0 now).books,
      ∃ y ∈ db.books, x = if (y.id == b.id) = true
        then { y with available := y.available + 1 } else y := by
    intro x hx
    simp only [returnedState, updateWhere, List.mem_map] at hx
    obtain ⟨y, hy, hxy⟩ := hx
    exact ⟨y, hy, hxy.symm⟩
  have hmem_txns : ∀ t ∈ (returnedState db b t0 now).txns,
      ∃ u ∈ db.txns, t = if (u.id == t0.id) = true
        then { u with return_date := some now, status := "returned" } else u := by
    intro t ht
    simp only [returnedState, updateWhere, List.mem_map] at ht
    obtain ⟨u, hu, htu⟩ := ht
    exact ⟨u, hu, htu.symm⟩
  constructor
  · rw [hmapid]; exact bnd
  · intro x hx
    obtain ⟨y, hy, rfl⟩ := hmem_books x hx
    have := blt y hy
    by_cases h : (y.id == b.id) = true <;> simp [h] <;> exact this
  · rw [hmaptid]; exact tnd
  · intro t ht
    obtain ⟨u, hu, rfl⟩ := hmem_txns t ht
    have := tlt u hu
    by_cases h : (u.id == t0.id) = true <;> simp [h] <;> exact this
  · intro t ht
    obtain ⟨u, hu, rfl⟩ := hmem_txns t ht
    have := tblt u hu
    by_cases h : (u.id == t0.id) = true <;> simp [h] <;> exact this
  · intro x hx
    obtain ⟨y, hy, rfl⟩ := hmem_books x hx
    by_cases h : (y.id == b.id) = true
    · have hy_id : y.id = b.id := beq_iff_eq.mp h
      have hyb : y = b := eq_of_key_eq_of_nodup Book.id db.books bnd hy hb hy_id
      subst hyb
      rw [if_pos h]
      have heq := haeq y hy
      have hoc := openCount_returnedState_hit db y t0 now y.id tnd ht0 hto htb
      simp only [returnedState] at hoc ⊢
      omega
    · rw [if_neg h]
      have hy_id : y.id ≠ b.id := fun he => h (beq_iff_eq.mpr he)
      have hneq : t0.book_id ≠ y.id := by rw [htb]; exact fun he => hy_id he.symm
      have hoc := openCount_returnedState_other db b t0 now y.id tnd ht0 hneq
      simp only [returnedState] at hoc ⊢
      rw [hoc]
      exact haeq y hy
  · intro x hx
    obtain ⟨y, hy, rfl⟩ := hmem_books x hx
    have := hnn y hy
    by_cases h : (y.id == b.id) = true <;> simp [h] <;> omega

/-- The book row inserted by a successful `add_book`. -/
def addedBook (db : DB) (d : BookData) : Book :=
  { id := db.nextBookId, title := d.title, author := d.author, isbn := d.isbn,
    quantity := d.quantity, available := d.quantity, category := d.category }

/-- The state produced by a successful `add_book`. -/
def addedState (db : DB) (d : BookData) : DB :=
  { db with books := db.books ++ [addedBook db d], nextBookId := db.nextBookId + 1 }

theorem inv_addedState (db : DB) (d : BookData)
    (hinv : Inv db) (hq : 0 ≤ d.quantity) : Inv (addedState db d) := by
  obtain ⟨bnd, blt, tnd, tlt, tblt, haeq, hnn⟩ := hinv
  have hzero : openCount db.txns db.nextBookId = 0 := by
    rw [openCount, List.countP_eq_zero]
    intro t ht
    have h1 := tblt t ht
    have h2 : t.book_id ≠ db.nextBookId := Nat.ne_of_lt h1
    simp [h2]
  constructor
  · show ((db.books ++ [addedBook db d]).map Book.id).Nodup
    rw [List.map_append, List.nodup_append]
    refine ⟨bnd, by simp, ?_⟩
    intro a ha hb2
    simp only [List.mem_map] at ha
    obtain ⟨y, hy, rfl⟩ := ha
    have h1 := blt y hy
    simp only [List.map_cons, List.map_nil, List.mem_singleton, addedBook] at hb2
    omega
  · intro x hx
    show x.id < db.nextBookId + 1
    rcases List.mem_append.mp hx with h1 | h2
    · have := blt x h1; omega
    · simp only [List.mem_singleton] at h2; subst h2; simp [addedBook]
  · exact tnd
  · exact tlt
  · intro t ht
    show t.book_id < db.nextBookId + 1
    have := tblt t ht
    omega
  · intro x hx
    rcases List.mem_append.mp hx with h1 | h2
    · exact haeq x h1
    · simp only [List.mem_singleton] at h2; subst h2
      show (addedBook db d).available + (openCount db.txns (addedBook db d).id : Int)
        = (addedBook db d).quantity
      simp [addedBook, hzero]
  · intro x hx
    rcases List.mem_append.mp hx with h1 | h2
    · exact hnn x h1
    · simp only [List.mem_singleton] at h2; subst h2
      simpa [addedBook] using hq

/-! ## Shape of each operation result and reachability -/

theorem validate_book_data_ok (title author isbn : String) (q : Int) (cat : String)
    (d : BookData) (h : validate_book_data title author isbn q cat = .ok d) :
    d.quantity = q ∧ 0 ≤ q ∧ validate_isbn_str isbn = .ok d.isbn := by
  rw [validate_book_data.eq_def] at h
  cases h1 : validate_string title "Title" 1 255 with
  | error e => rw [h1] at h; exact absurd h (by simp)
  | ok t =>
  rw [h1] at h
  simp only [] at h
  cases h2 : validate_string author "Author" 1 255 with
  | error e => rw [h2] at h; exact absurd h (by simp)
  | ok a =>
  rw [h2] at h
  simp only [] at h
  cases h3 : validate_isbn_str isbn with
  | error e => rw [h3] at h; exact absurd h (by simp)
  | ok i2 =>
  rw [h3] at h
  simp only [] at h
  cases h4 : validateIntField q "Quantity" (some 0) with
  | error e => rw [h4] at h; exact absurd h (by simp)
  | ok qv =>
  rw [h4] at h
  simp only [] at h
  cases h5 : validate_string cat "Category" 1 255 with
  | error e => rw [h5] at h; exact absurd h (by simp)
  | ok c =>
  rw [h5] at h
  simp only [] at h
  rw [validateIntField_min] at h4
  by_cases hq : (0 : Int) ≤ q
  · rw [if_pos hq] at h4
    have hqv : qv = q := by
      cases h4
      rfl
    have hd : d = { title := t, author := a, isbn := i2, quantity := qv, category := c } := by
      cases h
      rfl
    subst hd
    subst hqv
    exact ⟨rfl, hq, by simp [h3]⟩
  · rw [if_neg hq] at h4
    exact absurd h4 (by simp)

theorem add_book_cases (db : DB) (t a i : String) (q : Int) (c : String) :
    (add_book db t a i q c).1 = db ∨
    ∃ d, validate_book_data t a i q c = .ok d ∧
      (db.books.find? (fun x => x.isbn == d.isbn)).isSome = false ∧
      (add_book db t a i q c).1 = addedState db d := by
  rw [add_book.eq_def]
  cases hv : validate_book_data t a i q c with
  | error e => simp
  | ok d =>
    simp only []
    rw [addBookOperation.eq_def]
    by_cases hdup : (db.books.find? (fun x => x.isbn == d.isbn)).isSome
    · rw [if_pos hdup]; simp
    · rw [if_neg hdup]
      simp only []
      right
      refine ⟨d, rfl, by simp [hdup], ?_⟩
      simp [addedState, addedBook]

theorem add_member_frame (db : DB) (n e p : String) (now : Nat) :
    (add_member db n e p now).1.books = db.books ∧
    (add_member db n e p now).1.txns = db.txns ∧
    (add_member db n e p now).1.nextBookId = db.nextBookId ∧
    (add_member db n e p now).1.nextTxnId = db.nextTxnId := by
  rw [add_member.eq_def]
  cases hv : validate_member_data n e p with
  | error e2 => simp
  | ok d =>
    simp only []
    by_cases hdup : (db.members.find? (fun m => m.email == d.email)).isSome
    · rw [if_pos hdup]; simp
    · rw [if_neg hdup]; simp

theorem issue_book_cases (db : DB) (m : Int) (i : String) (now : Nat) :
    (issue_book db m i now).1 = db ∨
    ∃ b m2, b ∈ db.books ∧ 0 < b.available ∧
      (issue_book db m i now).1 = issuedState db b m2 now := by
  rw [issue_book.eq_def]
  cases hv : validateIntField m "Member ID" (some 1) with
  | error e => simp
  | ok mid =>
  simp only []
  cases hi : validate_isbn_str i with
  | error e => simp
  | ok i2 =>
  simp only []
  rw [issueOperation.eq_def]
  cases hf : db.books.find? (fun x => x.isbn == i2) with
  | none => simp
  | some b =>
  simp only []
  by_cases hz : b.available ≤ 0
  · rw [if_pos hz]; simp
  · rw [if_neg hz]
    by_cases hmem : memberExists db mid
    · rw [if_neg (by simp [hmem])]
      by_cases hrc : db.books.countP (fun x => x.id == b.id && decide (0 < x.available)) ≠ 1
      · rw [if_pos hrc]
        simp
      · rw [if_neg hrc]
        simp only []
        right
        refine ⟨b, mid, List.mem_of_find?_eq_some hf, by omega, ?_⟩
        simp [issuedState, issuedTxn]
    · rw [if_pos (by simp [hmem])]
      simp

theorem return_book_cases (db : DB) (m : Int) (i : String) (now : Nat) :
    (return_book db m i now).1 = db ∨
    ∃ b t0, b ∈ db.books ∧ t0 ∈ db.txns ∧ t0.book_id = b.id ∧ t0.return_date = none ∧
      (return_book db m i now).1 = returnedState db b t0 now := by
  rw [return_book.eq_def]
  cases hv : validateIntField m "Member ID" (some 1) with
  | error e => simp
  | ok mid =>
  simp only []
  cases hi : validate_isbn_str i with
  | error e => simp
  | ok i2 =>
  simp only []
  rw [returnOperation.eq_def]
  cases hf : db.books.find? (fun x => x.isbn == i2) with
  | none => simp
  | some b =>
  simp only []
  cases hl : db.txns.find? (fun t =>
      t.member_id == mid && t.book_id == b.id && t.return_date.isNone) with
  | none => simp
  | some t0 =>
  simp only []
  right
  have hp := List.find?_some hl
  have hmem := List.mem_of_find?_eq_some hl
  have hp2 := (Bool.and_eq_true _ _).mp hp
  have hp3 := (Bool.and_eq_true _ _).mp hp2.1
  refine ⟨b, t0, List.mem_of_find?_eq_some hf, hmem, beq_iff_eq.mp hp3.2,
    Option.isNone_iff_eq_none.mp hp2.2, ?_⟩
  simp [returnedState]

/-- The states reachable from the empty library through the four public
mutating operations (with arbitrary arguments, succeeding or failing). -/
inductive Reachable : DB → Prop
  | empty : Reachable emptyDB
  | add_book_step (db : DB) (t a i : String) (q : Int) (c : String) :
      Reachable db → Reachable (add_book db t a i q c).1
  | add_member_step (db : DB) (n e p : String) (now : Nat) :
      Reachable db → Reachable (add_member db n e p now).1
  | issue_step (db : DB) (m : Int) (i : String) (now : Nat) :
      Reachable db → Reachable (issue_book db m i now).1
  | return_step (db : DB) (m : Int) (i : String) (now : Nat) :
      Reachable db → Reachable (return_book db m i now).1

theorem inv_congr (db1 db2 : DB) (hb : db2.books = db1.books) (ht : db2.txns = db1.txns)
    (hnb : db2.nextBookId = db1.nextBookId) (hnt : db2.nextTxnId = db1.nextTxnId)
    (h : Inv db1) : Inv db2 := by
  obtain ⟨bnd, blt, tnd, tlt, tblt, haeq, hnn⟩ := h
  constructor
  · rw [hb]; exact bnd
  · rw [hb, hnb]; exact blt
  · rw [ht]; exact tnd
  · rw [ht, hnt]; exact tlt
  · rw [ht, hnb]; exact tblt
  · rw [hb, ht]; exact haeq
  · rw [hb]; exact hnn

theorem reachable_inv (db : DB) (h : Reachable db) : Inv db := by
  induction h with
  | empty => exact emptyDB_inv
  | add_book_step db t a i q c _ ih =>
    rcases add_book_cases db t a i q c with he | ⟨d, hv, _, he⟩
    · rw [he]; exact ih
    · rw [he]
      obtain ⟨hdq, hq0, _⟩ := validate_book_data_ok t a i q c d hv
      exact inv_addedState db d ih (by omega)
  | add_member_step db n e p now _ ih =>
    obtain ⟨h1, h2, h3, h4⟩ := add_member_frame db n e p now
    exact inv_congr db (add_member db n e p now).1 h1 h2 h3 h4 ih
  | issue_step db m i now _ ih =>
    rcases issue_book_cases db m i now with he | ⟨b, m2, hb, hpos, he⟩
    · rw [he]; exact ih
    · rw [he]; exact inv_issuedState db b m2 now ih hb hpos
  | return_step db m i now _ ih =>
    rcases return_book_cases db m i now with he | ⟨b, t0, hb, ht0, htb, hto, he⟩
    · rw [he]; exact ih
    · rw [he]; exact inv_returnedState db b t0 now ih hb ht0 htb hto

/-! ## Folded issue / return sequences (test drivers for the atomicity property) -/

/-- Issue the book to each member of `ms` in turn, stopping at the first
failure. -/
def issueAll (db : DB) (ms : List Int) (isbn : String) (now : Nat) :
    DB × Option String :=
  match ms with
  | [] => (db, none)
  | m :: rest =>
    match issue_book db m isbn now with
    | (db2, none) => issueAll db2 rest isbn now
    | (db2, some e) => (db2, some e)

/-- Return the book for each member of `ms` in turn, stopping at the first
failure. -/
def returnAll (db : DB) (ms : List Int) (isbn : String) (now : Nat) :
    DB × Option String :=
  match ms with
  | [] => (db, none)
  | m :: rest =>
    match return_book db m isbn now with
    | (db2, none) => returnAll db2 rest isbn now
    | (db2, some e) => (db2, some e)

theorem issueAll_spec (ms : List Int) (db : DB) (b : Book) (i : String) (now : Nat)
    (hinv : Inv db)
    (hfind : selectBookByIsbn db i = some b)
    (hvalid : validate_isbn_str i = .ok i)
    (hnd : ms.Nodup)
    (hms : ∀ m ∈ ms, 1 ≤ m ∧ memberExists db m = true)
    (hlen : (ms.length : Int) ≤ b.available) :
    ∃ db1, issueAll db ms i now = (db1, none) ∧ Inv db1 ∧
      db1.members = db.members ∧
      selectBookByIsbn db1 i = some { b with available := b.available - ms.length } ∧
      ∀ m', countOpenFor db1.txns m' b.id
        = countOpenFor db.txns m' b.id + (if m' ∈ ms then 1 else 0) := by
  induction ms generalizing db b with
  | nil =>
    refine ⟨db, rfl, hinv, rfl, by simpa using hfind, ?_⟩
    intro m'
    simp
  | cons m rest ih =>
    have hpos : 0 < b.available := by
      simp only [List.length_cons] at hlen
      push_cast at hlen
      omega
    obtain ⟨hm1, hmem⟩ := hms m (by simp)
    have hb := List.mem_of_find?_eq_some hfind
    have hsucc := issue_book_success db m i now b hinv.book_ids_nodup hfind hpos hm1 hmem hvalid
    have hfind2 := selectBookByIsbn_issuedState db b m now i hfind hpos
    have hinv2 := inv_issuedState db b m now hinv hb hpos
    have hnd2 : rest.Nodup := (List.nodup_cons.mp hnd).2
    have hmnotin : m ∉ rest := (List.nodup_cons.mp hnd).1
    have hms2 : ∀ m2 ∈ rest, 1 ≤ m2 ∧ memberExists (issuedState db b m now) m2 = true := by
      intro m2 hm2
      exact hms m2 (by simp [hm2])
    have hlen2 : ((rest.length : Int))
        ≤ ({ b with available := b.available - 1 } : Book).available := by
      simp only [List.length_cons] at hlen
      push_cast at hlen
      simp only []
      omega
    obtain ⟨db1, hrun, hinv1, hmem1, hfind1, hcount1⟩ :=
      ih (issuedState db b m now) { b with available := b.available - 1 }
        hinv2 hfind2 hnd2 hms2 hlen2
    have hid : ({ b with available := b.available - 1 } : Book).id = b.id := rfl
    refine ⟨db1, ?_, hinv1, hmem1, ?_, ?_⟩
    · rw [issueAll, hsucc]
      exact hrun
    · rw [hfind1]
      congr 2
      simp only [List.length_cons]
      push_cast
      ring
    · intro m'
      rw [hid] at hcount1
      rw [hcount1 m', countOpenFor_issuedState db b m now m' b.id]
      by_cases hm' : m' = m
      · subst hm'
        simp [hmnotin]
      · simp [hm', List.mem_cons]

theorem returnAll_spec (ms : List Int) (db : DB) (b : Book) (i : String) (now : Nat)
    (hinv : Inv db)
    (hfind : selectBookByIsbn db i = some b)
    (hvalid : validate_isbn_str i = .ok i)
    (hnd : ms.Nodup)
    (hms : ∀ m ∈ ms, 1 ≤ m ∧ 1 ≤ countOpenFor db.txns m b.id) :
    ∃ db2, returnAll db ms i now = (db2, none) ∧ Inv db2 ∧
      selectBookByIsbn db2 i = some { b with available := b.available + ms.length } := by
  induction ms generalizing db b with
  | nil => exact ⟨db, rfl, hinv, by simpa using hfind⟩
  | cons m rest ih =>
    obtain ⟨hm1, hopen⟩ := hms m (by simp)
    have hb := List.mem_of_find?_eq_some hfind
    have hfl : ∃ t1, db.txns.find? (fun t =>
        t.member_id == m && t.book_id == b.id && t.return_date.isNone) = some t1 := by
      rw [← Option.isSome_iff_exists, List.find?_isSome]
      rw [countOpenFor] at hopen
      exact List.countP_pos_iff.mp (by omega)
    obtain ⟨t1, hfl⟩ := hfl
    have hp := List.find?_some hfl
    have ht1mem := List.mem_of_find?_eq_some hfl
    have hp2 := (Bool.and_eq_true _ _).mp hp
    have hp3 := (Bool.and_eq_true _ _).mp hp2.1
    have htm : t1.member_id = m := beq_iff_eq.mp hp3.1
    have htb : t1.book_id = b.id := beq_iff_eq.mp hp3.2
    have hto : t1.return_date = none := Option.isNone_iff_eq_none.mp hp2.2
    have hsucc := return_book_success db m i now b t1 hfind hfl hm1 hvalid
    have hinv2 := inv_returnedState db b t1 now hinv hb ht1mem htb hto
    have hfind2 := selectBookByIsbn_returnedState db b t1 now i hfind
    have hnd2 : rest.Nodup := (List.nodup_cons.mp hnd).2
    have hmnotin : m ∉ rest := (List.nodup_cons.mp hnd).1
    have hid : ({ b with available := b.available + 1 } : Book).id = b.id := rfl
    have hms2 : ∀ m2 ∈ rest, 1 ≤ m2 ∧
        1 ≤ countOpenFor (returnedState db b t1 now).txns m2
          ({ b with available := b.available + 1 } : Book).id := by
      intro m2 hm2
      obtain ⟨x1, x2⟩ := hms m2 (by simp [hm2])
      refine ⟨x1, ?_⟩
      have hne : m2 ≠ m := fun he => hmnotin (he ▸ hm2)
      have hmiss : ¬(t1.member_id = m2 ∧ t1.book_id = b.id) := by
        intro hcon
        exact hne (htm ▸ hcon.1.symm)
      have hother := countOpenFor_returnedState_other db b t1 now m2 b.id
        hinv.txn_ids_nodup ht1mem hmiss
      rw [hid, hother]
      exact x2
    obtain ⟨db2, hrun, hinv1, hfind1⟩ :=
      ih (returnedState db b t1 now) { b with available := b.available + 1 }
        hinv2 hfind2 hnd2 hms2
    refine ⟨db2, ?_, hinv1, ?_⟩
    · rw [returnAll, hsucc]
      exact hrun
    · rw [hfind1]
      congr 2
      simp only [List.length_cons]
      push_cast
      ring

/-! ## Concrete scenario used by the witnesses -/

/-- A library built from the empty database: one book ("Dune", ISBN
0306406152, quantity 2) and two members (ids 1 and 2). -/
def dbBook : DB := (add_book emptyDB "Dune" "Herbert" "0306406152" 2 "SciFi").1

def dbBookM1 : DB := (add_member dbBook "Ann" "a@x.com" "123456789" 0).1

def dbScenario : DB := (add_member dbBookM1 "Bea" "b@x.com" "123456789" 0).1

/-- The book row of `dbScenario`. -/
def duneBook : Book :=
  { id := 1, title := "Dune", author := "Herbert", isbn := "0306406152",
    quantity := 2, available := 2, category := "SciFi" }

/-- The member row with email `a@x.com` in `dbScenario`. -/
def annMember : Member :=
  { id := 1, name := "Ann", email := "a@x.com", phone := "123456789", join_date := 0 }

/-! ## The claims -/

/-- A `verify_password` model for the authentication scenarios: the stored
"hash" is the password itself and verification is string equality. -/
def strEqVerify : String → String → Bool := fun p h => p == h

/-- The user `alice` with no failed logins recorded. -/
def aliceUser : User :=
  { id := 1, username := "alice", password_hash := "pw", role := "user", login_attempts := 0 }

/-- The user `alice` after five failed logins (stored `login_attempts = 5`). -/
def lockedAlice : User :=
  { id := 1, username := "alice", password_hash := "pw", role := "user", login_attempts := 5 }

/-- One failed `authenticate_user` call for `alice` (wrong password). -/
def failedLoginStep (us : List User) : List User :=
  (authenticate_user strEqVerify us "alice" "bad").2

/-- The users table after five consecutive failed logins for `alice`. -/
def fiveFailedLogins : List User :=
  failedLoginStep (failedLoginStep (failedLoginStep (failedLoginStep
    (failedLoginStep [aliceUser]))))

/-- C1 (code bug): five consecutive failed `authenticate_user` calls store
`login_attempts = 5` for `alice`, yet the sixth call with the correct
password returns a successful login (and resets the counter) instead of
raising the "account locked" `ValidationError`.  The SELECT in
`authenticate_user` aliases `COUNT(*) as login_attempts`, which shadows the
stored column, so the lockout comparison always sees 1. -/
theorem c1_lockout_never_fires :
    fiveFailedLogins = [lockedAlice]
    ∧ (authenticate_user strEqVerify [lockedAlice] "alice" "pw").1
        = Except.ok (some { id := 1, username := "alice", role := "user" })
    ∧ (authenticate_user strEqVerify [lockedAlice] "alice" "pw").2 = [aliceUser] := by
  refine ⟨by decide, by decide, by decide⟩

/-- C2 counterexample: the validator through which `add_book` inputs pass
(`DataValidator.validate_isbn`) accepts "0306406153", obtained from the valid
ISBN-10 "0306406152" by flipping the check digit; the repository's own
checksum code (`utils.validate_isbn`) rejects it.  `add_book` on an empty
database accepts the corrupted ISBN outright. -/
theorem c2_counterexample :
    validate_isbn_str "0306406153" = .ok "0306406153"
    ∧ utils_validate_isbn "0306406153" = false
    ∧ utils_validate_isbn "0306406152" = true
    ∧ (add_book emptyDB "T" "A" "0306406153" 1 "Gen").2 = none := by
  refine ⟨by decide, by decide, by decide, by decide⟩

theorem isDigit_not_special (c : Char) (h : c.isDigit = true) :
    (c != '-') = true ∧ (c != ' ') = true ∧ (c != 'X') = true := by
  refine ⟨?_, ?_, ?_⟩ <;> rw [bne_iff_ne] <;> rintro rfl <;> exact absurd h (by decide)

/-- C2 amended: the core ISBN validator performs format verification only —
every all-digit string of length 10 or 13 is accepted unchanged, regardless
of its check digit.  (Checksum verification exists only in
`utils.validate_isbn`, which the core operations never call.) -/
theorem c2_validate_isbn_format_only (ds : List Char)
    (hlen : ds.length = 10 ∨ ds.length = 13)
    (hdig : ds.all Char.isDigit = true) :
    dvValidateIsbn ds = .ok ds := by
  have hall := List.all_eq_true.mp hdig
  have hstrip : stripIsbn ds = ds := by
    rw [stripIsbn, List.filter_eq_self]
    intro a ha
    have h1 := isDigit_not_special a (hall a ha)
    rw [h1.1, h1.2.1]
    rfl
  have hfx : ds.filter (fun c => c != 'X') = ds := by
    rw [List.filter_eq_self]
    intro a ha
    exact (isDigit_not_special a (hall a ha)).2.2
  have hne : ds ≠ [] := by
    intro h
    rw [h] at hlen
    simp at hlen
  have hpd : pyIsdigit ds = true := by
    rw [pyIsdigit]
    simp [hdig, hne]
  rcases hlen with h10 | h13
  · have ht9 : pyIsdigit (ds.take 9) = true := by
      rw [pyIsdigit]
      have hl9 : (ds.take 9).length = 9 := by
        rw [List.length_take]
        omega
      have hall9 : (ds.take 9).all Char.isDigit = true :=
        List.all_eq_true.mpr fun a ha => hall a (List.take_subset 9 ds ha)
      have hne9 : ¬(ds.take 9).isEmpty = true := by
        rw [List.isEmpty_iff]
        intro hcon
        rw [hcon] at hl9
        simp at hl9
      simp [hall9, hne9]
    have hmem9 : ds.getD 9 ' ' ∈ ds := by
      have h9 : 9 < ds.length := by omega
      rw [List.getD_eq_getElem?_getD, List.getElem?_eq_getElem h9]
      exact List.getElem_mem h9
    have hd9 : (ds.getD 9 ' ').isDigit = true := hall _ hmem9
    have hgd : ds.getD 9 ' ' = ds[9] := by
      rw [List.getD_eq_getElem?_getD, List.getElem?_eq_getElem (by omega : 9 < ds.length)]
      rfl
    rw [dvValidateIsbn]
    simp [hstrip, hfx, hpd, h10, ht9, hd9]
    intro _
    have hd9b := hd9
    rw [hgd] at hd9b
    exact hd9b
  · have h10f : ds.length ≠ 10 := by omega
    rw [dvValidateIsbn]
    simp [hstrip, hfx, hpd, h13, h10f]

/-- C2 amended, witness: the corrupted ISBN "0306406153" (ten digits, wrong
check digit) is accepted by the core validator. -/
theorem c2_witness :
    dvValidateIsbn "0306406153".toList = .ok "0306406153".toList :=
  c2_validate_isbn_format_only "0306406153".toList (Or.inl (by decide)) (by decide)

/-- C6: whenever `issue_book` fails, after any of its internal steps, the
transaction is rolled back and the returned state is exactly the entry state:
no book's `available` changed and no transaction row was inserted. -/
theorem c6_issue_rollback (db : DB) (m : Int) (i : String) (now : Nat)
    (h : (issue_book db m i now).2 ≠ none) :
    (issue_book db m i now).1 = db :=
  issue_book_error_frame db m i now h

/-- C6 witness: issuing from the empty library fails ("Book does not exist")
and leaves the state untouched. -/
theorem c6_witness :
    (issue_book emptyDB 1 "0306406152" 0).2 ≠ none
    ∧ (issue_book emptyDB 1 "0306406152" 0).1 = emptyDB :=
  ⟨by decide, c6_issue_rollback emptyDB 1 "0306406152" 0 (by decide)⟩

/-- C7: full characterization of `_execute_with_retry` at its default
`retries = 3` (sleep durations in milliseconds).  It makes at most 3
attempts; only the "database is locked" `OperationalError` is retried,
sleeping 500 ms before the second attempt and 1000 ms before the third; any
other error propagates immediately with no sleep; and when all three
attempts hit the busy condition the last busy error is re-raised. -/
theorem c7_retry_contract (outcome : Nat → OpResult) :
    executeWithRetry outcome 3 =
      match outcome 0 with
      | .success => ([], .success 1)
      | .opOther => ([], .raisedOpOther 1)
      | .otherError => ([], .raisedOther 1)
      | .opLocked =>
        match outcome 1 with
        | .success => ([500], .success 2)
        | .opOther => ([500], .raisedOpOther 2)
        | .otherError => ([500], .raisedOther 2)
        | .opLocked =>
          match outcome 2 with
          | .success => ([500, 1000], .success 3)
          | .opOther => ([500, 1000], .raisedOpOther 3)
          | .otherError => ([500, 1000], .raisedOther 3)
          | .opLocked => ([500, 1000], .raisedLocked 3) := by
  rcases h0 : outcome 0 <;> rcases h1 : outcome 1 <;> rcases h2 : outcome 2 <;>
    simp [executeWithRetry, retryLoop, h0, h1, h2]

/-- C9: on its `Union[str, int]` domain, `validate_integer` either returns
the parsed integer (exactly when the value parses and lies within the given
bounds) or raises a `ValidationError` — never a bare `ValueError` or any
other exception kind. -/
theorem c9_validate_integer_total (value : PyValue) (fieldName : String)
    (minValue maxValue : Option Int) :
    (∃ n, validate_integer value fieldName minValue maxValue = .ok n
        ∧ pyInt value = .ok n
        ∧ (∀ mv, minValue = some mv → mv ≤ n)
        ∧ (∀ mv, maxValue = some mv → n ≤ mv))
    ∨ (∃ msg, validate_integer value fieldName minValue maxValue
        = .error (.validationError msg)) := by
  rw [validate_integer.eq_def, validate_integer_try.eq_def]
  cases hp : pyInt value with
  | error m =>
    simp only []
    right
    exact ⟨_, rfl⟩
  | ok num =>
    simp only []
    by_cases hmin : minValue.any (fun mv => decide (num < mv)) = true
    · rw [if_pos hmin]
      right
      exact ⟨_, rfl⟩
    · rw [if_neg hmin]
      by_cases hmax : maxValue.any (fun mv => decide (mv < num)) = true
      · rw [if_pos hmax]
        right
        exact ⟨_, rfl⟩
      · rw [if_neg hmax]
        left
        refine ⟨num, rfl, rfl, ?_, ?_⟩
        · intro mv hmv
          rw [hmv] at hmin
          simp [Option.any] at hmin
          omega
        · intro mv hmv
          rw [hmv] at hmax
          simp [Option.any] at hmax
          omega

/-- C10: `get_available_books` returns SQL NULL (`none`) — not 0 — when the
books table is empty, because the aggregate query still yields one row whose
sum is NULL, so the no-row fallback to 0 is dead; on a nonempty table it
returns the sum of all `available` columns. -/
theorem c10_get_available_books (db : DB) :
    (db.books = [] → get_available_books db = none)
    ∧ (db.books ≠ [] → get_available_books db
        = some ((db.books.map Book.available).sum)) := by
  constructor <;> intro h <;> simp [get_available_books, sumAvailableRow, h]

/-- C10 witness: the empty library yields `none`; the scenario library (one
book with two copies) yields `some 2`. -/
theorem c10_witness :
    get_available_books emptyDB = none
    ∧ get_available_books dbScenario = some 2 := by
  constructor
  · exact (c10_get_available_books emptyDB).1 rfl
  · have h := (c10_get_available_books dbScenario).2 (by decide)
    rw [h]
    decide

/-! ## Claims about the circulation state machine -/

theorem find?_append_of_some {α : Type} (l1 l2 : List α) (p : α → Bool) (a : α)
    (h : l1.find? p = some a) : (l1 ++ l2).find? p = some a := by
  induction l1 with
  | nil => simp at h
  | cons x t ih =>
    by_cases hx : p x = true
    · rw [List.find?_cons_of_pos _ hx] at h
      rw [List.cons_append, List.find?_cons_of_pos _ hx]
      exact h
    · rw [List.find?_cons_of_neg _ hx] at h
      rw [List.cons_append, List.find?_cons_of_neg _ hx]
      exact ih h

theorem availOf_self (db : DB) (hnd : (db.books.map Book.id).Nodup)
    (b : Book) (hb : b ∈ db.books) : availOf db b.id = some b.available := by
  rw [availOf, selectBookById, find?_key_of_nodup Book.id db.books hnd b hb]
  rfl

theorem availOf_addedState (db : DB) (d : BookData)
    (hnd : (db.books.map Book.id).Nodup) (b : Book) (hb : b ∈ db.books) :
    availOf (addedState db d) b.id = some b.available := by
  rw [availOf, selectBookById]
  have h1 : (addedState db d).books = db.books ++ [addedBook db d] := rfl
  rw [h1, find?_append_of_some db.books [addedBook db d] _ b
    (find?_key_of_nodup Book.id db.books hnd b hb)]
  rfl

/-- How a pre-state book's `available` reads through an updated state:
unchanged for every book of `db`. -/
def availUnchanged (db db2 : DB) : Prop :=
  ∀ b ∈ db.books, availOf db2 b.id = some b.available

/-- Exactly the book with id `bid` has its `available` changed by `d`; every
other book of `db` is untouched. -/
def availDelta (db db2 : DB) (bid : Nat) (d : Int) : Prop :=
  (∀ b ∈ db.books, b.id ≠ bid → availOf db2 b.id = some b.available)
  ∧ (∀ b ∈ db.books, b.id = bid → availOf db2 b.id = some (b.available + d))

/-- C3: in every state reachable from the empty library through the public
operations, each book row satisfies `0 ≤ available ≤ quantity`; and
`available` is changed only by issue/return transactions — `add_book` and
`add_member` leave every existing book's `available` untouched, while
`issue_book` either changes nothing (on failure) or decrements exactly one
book by 1, and `return_book` either changes nothing or increments exactly
one book by 1. -/
theorem c3_available_invariant (db : DB) (h : Reachable db) :
    (∀ b ∈ db.books, 0 ≤ b.available ∧ b.available ≤ b.quantity)
    ∧ (∀ t a i q c, availUnchanged db (add_book db t a i q c).1)
    ∧ (∀ n e p now, availUnchanged db (add_member db n e p now).1)
    ∧ (∀ m i now, availUnchanged db (issue_book db m i now).1
        ∨ ∃ bid, availDelta db (issue_book db m i now).1 bid (-1))
    ∧ (∀ m i now, availUnchanged db (return_book db m i now).1
        ∨ ∃ bid, availDelta db (return_book db m i now).1 bid 1) := by
  have hinv := reachable_inv db h
  have hnd := hinv.book_ids_nodup
  refine ⟨?_, ?_, ?_, ?_, ?_⟩
  · intro b hb
    have h1 := hinv.avail_nonneg b hb
    have h2 := hinv.avail_eq b hb
    have h3 : (0 : Int) ≤ (openCount db.txns b.id : Int) := Int.natCast_nonneg _
    exact ⟨h1, by omega⟩
  · intro t a i q c
    rcases add_book_cases db t a i q c with he | ⟨d, _, _, he⟩
    · rw [he]
      intro b hb
      exact availOf_self db hnd b hb
    · rw [he]
      intro b hb
      exact availOf_addedState db d hnd b hb
  · intro n e p now
    intro b hb
    have h1 := (add_member_frame db n e p now).1
    have h2 := availOf_self db hnd b hb
    rw [availOf, selectBookById] at h2 ⊢
    rw [h1]
    exact h2
  · intro m i now
    rcases issue_book_cases db m i now with he | ⟨b0, m2, hb0, hpos, he⟩
    · left
      rw [he]
      intro b hb
      exact availOf_self db hnd b hb
    · right
      refine ⟨b0.id, ?_, ?_⟩
      · intro b hb hne
        rw [he]
        exact availOf_issuedState_other db b0 m2 now b hnd hb hne
      · intro b hb heq
        have hbb : b = b0 := eq_of_key_eq_of_nodup Book.id db.books hnd hb hb0 heq
        subst hbb
        rw [he]
        have h1 := availOf_issuedState_self db b m2 now hnd hb hpos
        rw [heq] at h1 ⊢
        rw [h1]
        congr 1
  · intro m i now
    rcases return_book_cases db m i now with he | ⟨b0, t0, hb0, ht0, htb, hto, he⟩
    · left
      rw [he]
      intro b hb
      exact availOf_self db hnd b hb
    · right
      refine ⟨b0.id, ?_, ?_⟩
      · intro b hb hne
        rw [he]
        exact availOf_returnedState_other db b0 t0 now b hnd hb hne
      · intro b hb heq
        have hbb : b = b0 := eq_of_key_eq_of_nodup Book.id db.books hnd hb hb0 heq
        subst hbb
        rw [he]
        have h1 := availOf_returnedState_self db b t0 now hnd hb
        rw [heq] at h1 ⊢
        rw [h1]

/-- C3 witness: in the concrete scenario library (reachable from empty), the
book row satisfies the bounds. -/
theorem c3_witness :
    0 ≤ duneBook.available ∧ duneBook.available ≤ duneBook.quantity := by
  have hr : Reachable dbScenario := by
    have h0 := Reachable.empty
    have h1 := Reachable.add_book_step emptyDB "Dune" "Herbert" "0306406152" 2 "SciFi" h0
    have h2 := Reachable.add_member_step dbBook "Ann" "a@x.com" "123456789" 0 h1
    have h3 := Reachable.add_member_step dbBookM1 "Bea" "b@x.com" "123456789" 0 h2
    exact h3
  exact (c3_available_invariant dbScenario hr).1 duneBook (by decide)

/-- C4: for a book whose `available` equals its `quantity` Q, issuing to Q
distinct existing members succeeds throughout and drives `available` to 0; a
further `issue_book` call — any member argument — fails with a
`ValidationError` and leaves the state (hence `available = 0`) unchanged;
and returning the book for each of the Q members then restores `available`
to Q. -/
theorem c4_issue_return_roundtrip (db : DB) (b : Book) (i : String) (ms : List Int)
    (now now2 : Nat)
    (hinv : Inv db)
    (hfind : selectBookByIsbn db i = some b)
    (hfull : b.available = b.quantity)
    (hvalid : validate_isbn_str i = .ok i)
    (hnd : ms.Nodup)
    (hms : ∀ m ∈ ms, 1 ≤ m ∧ memberExists db m = true)
    (hlen : (ms.length : Int) = b.quantity) :
    ∃ db1 db2,
      issueAll db ms i now = (db1, none)
      ∧ selectBookByIsbn db1 i = some { b with available := 0 }
      ∧ (∀ m' now3, (issue_book db1 m' i now3).2 ≠ none
          ∧ (issue_book db1 m' i now3).1 = db1)
      ∧ returnAll db1 ms i now2 = (db2, none)
      ∧ selectBookByIsbn db2 i = some { b with available := b.quantity } := by
  obtain ⟨db1, hrun, hinv1, hmem1, hfind1, hcount1⟩ :=
    issueAll_spec ms db b i now hinv hfind hvalid hnd hms (by omega)
  have hz : b.available - (ms.length : Int) = 0 := by omega
  rw [hz] at hfind1
  have hfail : ∀ m' now3, (issue_book db1 m' i now3).2 ≠ none
      ∧ (issue_book db1 m' i now3).1 = db1 := by
    intro m' now3
    by_cases hm' : 1 ≤ m'
    · have hu := issue_book_unavailable db1 m' i now3 { b with available := 0 }
        hfind1 (by simp) hm' hvalid
      rw [hu]
      exact ⟨by simp, rfl⟩
    · rw [issue_book.eq_def, validateIntField_min, if_neg hm']
      exact ⟨by simp, rfl⟩
  have hid : ({ b with available := (0 : Int) } : Book).id = b.id := rfl
  have hms2 : ∀ m ∈ ms, 1 ≤ m ∧
      1 ≤ countOpenFor db1.txns m ({ b with available := (0 : Int) } : Book).id := by
    intro m hm
    refine ⟨(hms m hm).1, ?_⟩
    rw [hid, hcount1 m, if_pos hm]
    omega
  obtain ⟨db2, hrun2, hinv2, hfind2⟩ :=
    returnAll_spec ms db1 { b with available := 0 } i now2 hinv1 hfind1 hvalid hnd hms2
  have ha : ({ b with available := (0 : Int) } : Book).available = 0 := rfl
  rw [ha] at hfind2
  have hq : (0 : Int) + (ms.length : Int) = b.quantity := by omega
  rw [hq] at hfind2
  exact ⟨db1, db2, hrun, hfind1, hfail, hrun2, hfind2⟩

/-- C4 witness: the scenario library (quantity 2, members 1 and 2). -/
theorem c4_witness :
    ∃ db1 db2,
      issueAll dbScenario [1, 2] "0306406152" 5 = (db1, none)
      ∧ selectBookByIsbn db1 "0306406152" = some { duneBook with available := 0 }
      ∧ (∀ m' now3, (issue_book db1 m' "0306406152" now3).2 ≠ none
          ∧ (issue_book db1 m' "0306406152" now3).1 = db1)
      ∧ returnAll db1 [1, 2] "0306406152" 7 = (db2, none)
      ∧ selectBookByIsbn db2 "0306406152"
          = some { duneBook with available := duneBook.quantity } :=
  c4_issue_return_roundtrip dbScenario duneBook "0306406152" [1, 2] 5 7
    (by constructor <;> decide) (by decide) (by decide) (by decide) (by decide)
    (by decide) (by decide)

/-- C5: with exactly one open loan between a member and a book, the first
`return_book` succeeds and increments `available` by exactly 1; the second
(with no intervening issue) fails with the error "No matching unreturned
loan record found" and leaves the state unchanged, so `available` has grown
by 1 across the two calls, not 2. -/
theorem c5_no_double_return (db : DB) (b : Book) (m : Int) (i : String)
    (now now2 : Nat)
    (hinv : Inv db)
    (hfind : selectBookByIsbn db i = some b)
    (hvalid : validate_isbn_str i = .ok i)
    (hm : 1 ≤ m)
    (hone : countOpenFor db.txns m b.id = 1) :
    ∃ db1, return_book db m i now = (db1, none)
      ∧ availOf db1 b.id = some (b.available + 1)
      ∧ return_book db1 m i now2 = (db1, some "No matching unreturned loan record found") := by
  have hb := List.mem_of_find?_eq_some hfind
  have hfl : ∃ t1, db.txns.find? (fun t =>
      t.member_id == m && t.book_id == b.id && t.return_date.isNone) = some t1 := by
    rw [← Option.isSome_iff_exists, List.find?_isSome]
    rw [countOpenFor] at hone
    exact List.countP_pos_iff.mp (by omega)
  obtain ⟨t1, hfl⟩ := hfl
  have hp := List.find?_some hfl
  have ht1mem := List.mem_of_find?_eq_some hfl
  have hp2 := (Bool.and_eq_true _ _).mp hp
  have hp3 := (Bool.and_eq_true _ _).mp hp2.1
  have htm : t1.member_id = m := beq_iff_eq.mp hp3.1
  have htb : t1.book_id = b.id := beq_iff_eq.mp hp3.2
  have hto : t1.return_date = none := Option.isNone_iff_eq_none.mp hp2.2
  have hsucc := return_book_success db m i now b t1 hfind hfl hm hvalid
  have hfind2 := selectBookByIsbn_returnedState db b t1 now i hfind
  have havail := availOf_returnedState_self db b t1 now hinv.book_ids_nodup hb
  have hcz : countOpenFor (returnedState db b t1 now).txns m b.id = 0 := by
    have hkey := countOpenFor_returnedState_hit db b t1 now m b.id
      hinv.txn_ids_nodup ht1mem hto htm htb
    omega
  have hid : ({ b with available := b.available + 1 } : Book).id = b.id := rfl
  have hloan2 : (returnedState db b t1 now).txns.find? (fun t =>
      t.member_id == m && t.book_id == ({ b with available := b.available + 1 } : Book).id
        && t.return_date.isNone) = none := by
    rw [hid, List.find?_eq_none]
    intro t ht
    rw [countOpenFor, List.countP_eq_zero] at hcz
    exact fun hc => absurd (hcz t ht) (by simp [hc])
  have hfail := return_book_no_loan (returnedState db b t1 now) m i now2
    { b with available := b.available + 1 } hfind2 hloan2 hm hvalid
  exact ⟨returnedState db b t1 now, hsucc, havail, hfail⟩

/-- C5 witness: after issuing the scenario book to member 1, returning twice
succeeds once, leaves `available` back at 2, and fails the second time. -/
theorem c5_witness :
    ∃ db1, return_book (issue_book dbScenario 1 "0306406152" 3).1 1 "0306406152" 4
        = (db1, none)
      ∧ availOf db1 duneBook.id = some ((duneBook.available - 1) + 1)
      ∧ return_book db1 1 "0306406152" 8
          = (db1, some "No matching unreturned loan record found") := by
  have h := c5_no_double_return (issue_book dbScenario 1 "0306406152" 3).1
    { duneBook with available := duneBook.available - 1 } 1 "0306406152" 4 8
    (by constructor <;> decide) (by decide) (by decide) (by decide) (by decide)
  exact h

theorem validate_member_data_ok (n e p : String) (d : MemberData)
    (h : validate_member_data n e p = .ok d) : d.email = e := by
  rw [validate_member_data.eq_def] at h
  cases h1 : validate_string n "Name" 1 255 with
  | error e2 =>
    rw [h1] at h
    exact absurd h (by simp)
  | ok n2 =>
    rw [h1] at h
    simp only [] at h
    by_cases he : validate_email e
    · by_cases hp : validate_phone p
      · simp only [he, hp, Bool.not_true, Bool.false_eq_true, if_false] at h
        cases h
        rfl
      · simp [he, hp] at h
    · simp [he] at h

/-- C8: calling `add_book` with an ISBN that validates to an existing book's
stored ISBN fails with a `ValidationError` and returns the state unchanged —
no row is modified or inserted; likewise `add_member` with an email equal to
an existing member's email fails and changes nothing. -/
theorem c8_duplicate_rejection (db : DB) :
    (∀ t a i q c b, b ∈ db.books → validate_isbn_str i = .ok b.isbn →
      (add_book db t a i q c).2 ≠ none ∧ (add_book db t a i q c).1 = db)
    ∧ (∀ n e p now mem, mem ∈ db.members → mem.email = e →
      (add_member db n e p now).2 ≠ none ∧ (add_member db n e p now).1 = db) := by
  constructor
  · intro t a i q c b hb hi
    rw [add_book.eq_def]
    cases hv : validate_book_data t a i q c with
    | error e2 => exact ⟨by simp, by simp⟩
    | ok d =>
      have hd := (validate_book_data_ok t a i q c d hv).2.2
      rw [hi] at hd
      have hdisbn : b.isbn = d.isbn := by
        injection hd
      have hdup : (db.books.find? (fun x => x.isbn == d.isbn)).isSome = true := by
        rw [List.find?_isSome]
        exact ⟨b, hb, by simp [hdisbn]⟩
      simp only []
      rw [addBookOperation.eq_def, if_pos hdup]
      exact ⟨by simp, by simp⟩
  · intro n e p now mem hmem hemail
    rw [add_member.eq_def]
    cases hv : validate_member_data n e p with
    | error e2 => exact ⟨by simp, by simp⟩
    | ok d =>
      have hd := validate_member_data_ok n e p d hv
      have hdup : (db.members.find? (fun x => x.email == d.email)).isSome = true := by
        rw [List.find?_isSome]
        refine ⟨mem, hmem, by simp [hemail, hd]⟩
      simp only []
      rw [if_pos hdup]
      exact ⟨by simp, by simp⟩

/-- C8 witness: the scenario library rejects both a duplicate ISBN and a
duplicate email, leaving the state unchanged. -/
theorem c8_witness :
    ((add_book dbScenario "X" "Y" "0306406152" 1 "Z").2 ≠ none
      ∧ (add_book dbScenario "X" "Y" "0306406152" 1 "Z").1 = dbScenario)
    ∧ ((add_member dbScenario "Qoy" "a@x.com" "123456789" 9).2 ≠ none
      ∧ (add_member dbScenario "Qoy" "a@x.com" "123456789" 9).1 = dbScenario) := by
  have h := c8_duplicate_rejection dbScenario
  exact ⟨h.1 "X" "Y" "0306406152" 1 "Z" duneBook (by decide) (by decide),
    h.2 "Qoy" "a@x.com" "123456789" 9 annMember (by decide) (by decide)⟩

end LibraManage
